import Mathlib

/-!
# Verification of the `marshaler` HTTP logging interceptor

Shallow embedding of `src/logger.go`: a `MultilineLogger` facade (redaction +
sink forwarding), the wrapped request-body reader, the wrapped response
writer, and the `ServeHTTP` request prelude, together with theorems settling
the specification claims.

Bytes are modelled as `List Char` (Go `[]byte` / `string` conversion is byte
preserving) and errors as opaque strings.  The effect of the Go code is
captured as a list of events: log-line emissions (structured, with a `render`
function giving the exact text passed to `Output`) and calls forwarded to the
underlying `http.ResponseWriter`.
-/

namespace Marshaler

/-! ## Models of `fmt.Sprintf`, `fmt.Sprintln`, `fmt.Sprint`

Only the verbs `%s` and `%d` appear in `logger.go`; arguments are passed
pre-rendered as strings (`%d` call sites render the integer with `toString`).
`fmt.Sprintln` separates operands with single spaces and appends a newline;
`fmt.Sprint` adds no separator between string-kinded operands, which all
operands at the call sites are. -/

def sprintfAux : List Char → List String → List Char
  | [], _ => []
  | '%' :: 's' :: rest, a :: args => a.data ++ sprintfAux rest args
  | '%' :: 'd' :: rest, a :: args => a.data ++ sprintfAux rest args
  | c :: rest, args => c :: sprintfAux rest args

def Sprintf (format : String) (args : List String) : String :=
  String.mk (sprintfAux format.data args)

def sprintlnAux : List String → List Char
  | [] => ['\n']
  | [a] => a.data ++ ['\n']
  | a :: rest => a.data ++ ' ' :: sprintlnAux rest

def Sprintln (args : List String) : String :=
  String.mk (sprintlnAux args)

def Sprint (args : List String) : String :=
  String.join args

/-! ## The `MultilineLogger` facade (logger.go lines 11-61)

The underlying `log.Logger` sink is modelled by its observable behaviour: the
error it returns for a given line (`SinkBehavior.err`).  Emission operations
return the list of `(calldepth, text)` pairs forwarded to the underlying
sink `Output` method; `Output` additionally returns the sink error, which the
convenience emitters `Print`/`Printf`/`Println` discard (their Go signatures
return nothing). -/

abbrev Err := String

structure SinkBehavior where
  err : String → Option Err

/-- `MultilineLogger.Output`: applies the redactor when non-nil, then forwards
to the underlying sink, propagating the sink error. -/
def Output (redactor : Option (String → String)) (sink : SinkBehavior)
    (calldepth : Nat) (s : String) : List (Nat × String) × Option Err :=
  let s := match redactor with
    | some f => f s
    | none => s
  ([(calldepth, s)], sink.err s)

/-- `MultilineLogger.Print`: formats with `fmt.Sprint` and calls `Output 2`,
discarding its error (the Go method has no return value). -/
def MLPrint (redactor : Option (String → String)) (sink : SinkBehavior)
    (v : List String) : List (Nat × String) :=
  (Output redactor sink 2 (Sprint v)).1

/-- `MultilineLogger.Printf`: formats with `fmt.Sprintf` and calls `Output 2`,
discarding its error. -/
def MLPrintf (redactor : Option (String → String)) (sink : SinkBehavior)
    (format : String) (v : List String) : List (Nat × String) :=
  (Output redactor sink 2 (Sprintf format v)).1

/-- `MultilineLogger.Println`: formats with `fmt.Sprintln` and calls
`Output 2`, discarding its error. -/
def MLPrintln (redactor : Option (String → String)) (sink : SinkBehavior)
    (v : List String) : List (Nat × String) :=
  (Output redactor sink 2 (Sprintln v)).1

/-! ## `net/http.StatusText` (standard library), restricted to common codes -/

def statusText : Nat → String
  | 100 => "Continue"
  | 101 => "Switching Protocols"
  | 200 => "OK"
  | 201 => "Created"
  | 202 => "Accepted"
  | 204 => "No Content"
  | 301 => "Moved Permanently"
  | 302 => "Found"
  | 304 => "Not Modified"
  | 400 => "Bad Request"
  | 401 => "Unauthorized"
  | 403 => "Forbidden"
  | 404 => "Not Found"
  | 405 => "Method Not Allowed"
  | 500 => "Internal Server Error"
  | 502 => "Bad Gateway"
  | 503 => "Service Unavailable"
  | _ => ""

/-! ## Log events

Each constructor corresponds to one emission site in `logger.go`; `render`
gives the exact string that site passes to `Output` (via `Printf`, which adds
no trailing newline, or `Println`, which appends one).  Payload bytes are
`List Char`. -/

inductive LogEvent where
  | requestLine (id method uri proto : String)
  | requestHeader (id name value : String)
  | requestBlank (id : String)
  | requestChunk (id : String) (data : List Char)
  | responseLine (id proto : String) (code : Nat)
  | responseHeader (id name value : String)
  | responseBlank (id : String)
  | responseChunk (id : String) (data : List Char)
deriving DecidableEq, Repr

/-- The exact text each emission site hands to `Output` (logger.go lines
67-73, 76, 79, 124, 149/151, 158-164, 167, 170). -/
def render : LogEvent → String
  | .requestLine id m u p => Sprintf "%s > %s %s %s" [id, m, u, p]
  | .requestHeader id k v => Sprintf "%s > %s: %s" [id, k, v]
  | .requestBlank id => Sprintln [id, ">"]
  | .requestChunk id data => Sprintln [id, ">", String.mk data]
  | .responseLine id proto code =>
      Sprintf "%s < %s %d %s" [id, proto, toString code, statusText code]
  | .responseHeader id k v => Sprintf "%s < %s: %s" [id, k, v]
  | .responseBlank id => Sprintln [id, "<"]
  | .responseChunk id data => Sprintln [id, "<", String.mk data]

/-- `if len(p) > 0 && p[len(p)-1] == '\n' { p = p[:len(p)-1] }` — the chunk
text actually logged by `multilineLoggerResponseWriter.Write` (lines
148-152). -/
def chunkToLog (p : List Char) : List Char :=
  if p.getLast? = some '\n' then p.dropLast else p

/-- `log.Logger.Output` writes `s` and appends a newline only when `s` lacks
one, so the line recorded by the sink is `render` with a single trailing
newline stripped. -/
def stripNL (s : String) : String :=
  String.mk (chunkToLog s.data)

def lineText (e : LogEvent) : String :=
  stripNL (render e)

/-! ## Events of the wrapped response writer

`REvent` interleaves log emissions with the calls forwarded to the underlying
`http.ResponseWriter`, in program order. -/

inductive REvent where
  | log (e : LogEvent)
  | fwdWriteHeader (code : Nat)
  | fwdWrite (p : List Char)
  | fwdFlush
deriving DecidableEq, Repr

/-! ## Wrapped request body reader (logger.go lines 115-127)

`multilineLoggerReadCloser.Read` delegates to the underlying body; the
outcome of the underlying call is modelled by the bytes it deposited (`data`, so
`n = data.length`) and the error it returned.  The wrapper logs `p[:n]` when
`0 < n` and returns `(n, err)` unchanged. -/

def mlRead (id : String) (data : List Char) (err : Option Err) :
    (Nat × Option Err) × List LogEvent :=
  let n := data.length
  ((n, err), if 0 < n then [LogEvent.requestChunk id data] else [])

/-! ## Wrapped response writer (logger.go lines 129-172) -/

/-- The two nested `range` loops of `WriteHeader` (lines 165-169): one
`responseHeader` line per value, value-list order preserved within a name. -/
def respHeaderEvents (id : String) : List (String × List String) → List REvent
  | [] => []
  | (k, vs) :: rest =>
      vs.map (fun v => REvent.log (.responseHeader id k v)) ++ respHeaderEvents id rest

/-- `multilineLoggerResponseWriter.WriteHeader` (lines 156-172): response
line, header lines, blank line, then the forwarded
`ResponseWriter.WriteHeader(code)` — emitted unconditionally on every call. -/
def writeHeaderEvents (id proto : String) (hdrs : List (String × List String))
    (code : Nat) : List REvent :=
  REvent.log (.responseLine id proto code)
    :: respHeaderEvents id hdrs
    ++ [REvent.log (.responseBlank id), REvent.fwdWriteHeader code]

inductive ROp where
  | write (p : List Char)
  | writeHeader (code : Nat)
  | flush
deriving DecidableEq, Repr

inductive GoPanic where
  | nilInterfaceCall
deriving DecidableEq, Repr

/-- `multilineLoggerResponseWriter.Flush` (lines 138-142): a checked type
assertion `f, ok := w.ResponseWriter.(http.Flusher)` — forward when the
underlying writer has the capability (`flusherOk`), no-op otherwise, never a
panic (`Except.error`). -/
def mlFlush (flusherOk : Bool) : Except GoPanic (List REvent) :=
  Except.ok (if flusherOk then [REvent.fwdFlush] else [])

/-- One handler-invoked operation on the wrapped response writer, from state
`wroteHeader`; returns the events emitted and the new `wroteHeader` flag. -/
def rstep (id proto : String) (hdrs : List (String × List String))
    (flusherOk : Bool) (wroteHeader : Bool) : ROp → List REvent × Bool
  | ROp.writeHeader code => (writeHeaderEvents id proto hdrs code, true)
  | ROp.write p =>
      ((if wroteHeader then [] else writeHeaderEvents id proto hdrs 200)
        ++ [REvent.log (.responseChunk id (chunkToLog p)), REvent.fwdWrite p],
       true)
  | ROp.flush => (((mlFlush flusherOk).toOption).getD [], wroteHeader)

/-- Run a whole handler trace against the wrapped response writer. -/
def runOps (id proto : String) (hdrs : List (String × List String))
    (flusherOk : Bool) : Bool → List ROp → List REvent
  | _, [] => []
  | wroteHeader, op :: rest =>
      (rstep id proto hdrs flusherOk wroteHeader op).1
        ++ runOps id proto hdrs flusherOk
            (rstep id proto hdrs flusherOk wroteHeader op).2 rest

/-! ## `ServeHTTP` request prelude (logger.go lines 65-91) -/

structure Request where
  method : String
  uri : String
  proto : String
  headers : List (String × List String)

/-- The two nested `range` loops over `r.Header` (lines 74-78). -/
def reqHeaderEvents (id : String) : List (String × List String) → List REvent
  | [] => []
  | (k, vs) :: rest =>
      vs.map (fun v => REvent.log (.requestHeader id k v)) ++ reqHeaderEvents id rest

/-- `ServeHTTP`: request line, request header lines, blank line, then every
event produced reactively by the wrapped body/writer while the wrapped
handler runs (`handlerEvents`). -/
def serveEvents (id : String) (r : Request) (handlerEvents : List REvent) :
    List REvent :=
  REvent.log (.requestLine id r.method r.uri r.proto)
    :: reqHeaderEvents id r.headers
    ++ REvent.log (.requestBlank id)
    :: handlerEvents

/-! ## Helper predicates and counters -/

def isRespLine : REvent → Bool
  | .log (.responseLine ..) => true
  | _ => false

def countRespLine (evts : List REvent) : Nat :=
  evts.countP isRespLine

def isChunkLine : LogEvent → Bool
  | .responseChunk .. => true
  | _ => false

/-- Projection of an event trace onto the log lines it emits. -/
def logOf (evts : List REvent) : List LogEvent :=
  evts.filterMap fun e => match e with
    | .log l => some l
    | _ => none

/-- The log lines of one status+header block. -/
def blockLines (id proto : String) (hdrs : List (String × List String))
    (code : Nat) : List LogEvent :=
  logOf (writeHeaderEvents id proto hdrs code)

/-- Number of explicit `WriteHeader` calls in a handler trace. -/
def countWH : List ROp → Nat
  | [] => 0
  | ROp.writeHeader _ :: rest => countWH rest + 1
  | _ :: rest => countWH rest

/-- Whether the first committing operation of the trace is a body write
(an implicit, `Write`-triggered header commit). -/
def implicitCommit : List ROp → Bool
  | [] => false
  | ROp.write _ :: _ => true
  | ROp.writeHeader _ :: _ => false
  | ROp.flush :: rest => implicitCommit rest

def hasWrite : List ROp → Bool
  | [] => false
  | ROp.write _ :: _ => true
  | _ :: rest => hasWrite rest

/-! ## Rendering lemmas: the exact text of each line shape -/

theorem render_requestLine (id m u p : String) :
    render (.requestLine id m u p) = id ++ " > " ++ m ++ " " ++ u ++ " " ++ p := by
  apply String.ext
  simp [render, Sprintf, sprintfAux, String.data_append]

theorem render_requestHeader (id k v : String) :
    render (.requestHeader id k v) = id ++ " > " ++ k ++ ": " ++ v := by
  apply String.ext
  simp [render, Sprintf, sprintfAux, String.data_append]

theorem render_responseHeader (id k v : String) :
    render (.responseHeader id k v) = id ++ " < " ++ k ++ ": " ++ v := by
  apply String.ext
  simp [render, Sprintf, sprintfAux, String.data_append]

theorem chunkToLog_concat (xs : List Char) : chunkToLog (xs ++ ['\n']) = xs := by
  simp [chunkToLog, List.getLast?_append]

theorem chunkToLog_append_concat (xs ys : List Char) :
    chunkToLog (xs ++ (ys ++ ['\n'])) = xs ++ ys := by
  rw [← List.append_assoc]
  exact chunkToLog_concat _

theorem lineText_requestBlank (id : String) :
    lineText (.requestBlank id) = id ++ " >" := by
  apply String.ext
  simp [lineText, render, stripNL, Sprintln, sprintlnAux, String.data_append,
    chunkToLog]

theorem lineText_responseBlank (id : String) :
    lineText (.responseBlank id) = id ++ " <" := by
  apply String.ext
  simp [lineText, render, stripNL, Sprintln, sprintlnAux, String.data_append,
    chunkToLog]

theorem lineText_requestChunk (id : String) (d : List Char) :
    lineText (.requestChunk id d) = id ++ " > " ++ String.mk d := by
  apply String.ext
  have e : (render (.requestChunk id d)).data
      = id.data ++ ((' ' :: '>' :: ' ' :: d) ++ ['\n']) := by
    simp [render, Sprintln, sprintlnAux]
  show chunkToLog ((render (.requestChunk id d)).data) = _
  rw [e, chunkToLog_append_concat]
  simp [String.data_append]

theorem lineText_responseChunk (id : String) (d : List Char) :
    lineText (.responseChunk id d) = id ++ " < " ++ String.mk d := by
  apply String.ext
  have e : (render (.responseChunk id d)).data
      = id.data ++ ((' ' :: '<' :: ' ' :: d) ++ ['\n']) := by
    simp [render, Sprintln, sprintlnAux]
  show chunkToLog ((render (.responseChunk id d)).data) = _
  rw [e, chunkToLog_append_concat]
  simp [String.data_append]

theorem render_responseLine_200 (id proto : String) :
    render (.responseLine id proto 200) = id ++ " < " ++ proto ++ " 200 OK" := by
  have e1 : toString (200 : Nat) = "200" := rfl
  have e2 : statusText 200 = "OK" := rfl
  apply String.ext
  simp [render, e1, e2, Sprintf, sprintfAux, String.data_append]

/-! ## Structural lemmas about the response-writer trace -/

theorem countRespLine_nil : countRespLine [] = 0 := rfl

theorem countRespLine_cons (e : REvent) (l : List REvent) :
    countRespLine (e :: l)
      = countRespLine l + (if isRespLine e then 1 else 0) := by
  simp [countRespLine, List.countP_cons]

theorem countRespLine_append (a b : List REvent) :
    countRespLine (a ++ b) = countRespLine a + countRespLine b := by
  simp [countRespLine, List.countP_append]

theorem runOps_cons (id proto : String) (hdrs : List (String × List String))
    (fl wh : Bool) (op : ROp) (rest : List ROp) :
    runOps id proto hdrs fl wh (op :: rest)
      = (rstep id proto hdrs fl wh op).1
          ++ runOps id proto hdrs fl (rstep id proto hdrs fl wh op).2 rest := rfl

theorem rstep_flush_events (id proto : String)
    (hdrs : List (String × List String)) (fl wh : Bool) :
    rstep id proto hdrs fl wh ROp.flush
      = ((if fl then [REvent.fwdFlush] else []), wh) := by
  cases fl <;> rfl

theorem countRespLine_respHeader_map (id k : String) (vs : List String) :
    countRespLine (vs.map fun v => REvent.log (.responseHeader id k v)) = 0 := by
  induction vs with
  | nil => rfl
  | cons v rest ih => simp [countRespLine_cons, isRespLine, ih]

theorem countRespLine_respHeaderEvents (id : String)
    (hdrs : List (String × List String)) :
    countRespLine (respHeaderEvents id hdrs) = 0 := by
  induction hdrs with
  | nil => rfl
  | cons kv rest ih =>
    obtain ⟨k, vs⟩ := kv
    simp [respHeaderEvents, countRespLine_append, countRespLine_respHeader_map,
      ih]

theorem countRespLine_writeHeaderEvents (id proto : String)
    (hdrs : List (String × List String)) (code : Nat) :
    countRespLine (writeHeaderEvents id proto hdrs code) = 1 := by
  simp [writeHeaderEvents, countRespLine_cons, countRespLine_append,
    countRespLine_respHeaderEvents, isRespLine, countRespLine_nil]

theorem countRespLine_runOps_true (id proto : String)
    (hdrs : List (String × List String)) (fl : Bool) (ops : List ROp) :
    countRespLine (runOps id proto hdrs fl true ops) = countWH ops := by
  induction ops with
  | nil => rfl
  | cons op rest ih =>
    cases op with
    | write p =>
      simp [runOps_cons, rstep, countRespLine_append, countRespLine_cons,
        countRespLine_nil, isRespLine, ih, countWH]
    | writeHeader c =>
      simp [runOps_cons, rstep, countRespLine_append,
        countRespLine_writeHeaderEvents, ih, countWH, Nat.add_comm]
    | flush =>
      cases fl <;>
        simp [runOps_cons, rstep_flush_events, countRespLine_append,
          countRespLine_cons, countRespLine_nil, isRespLine, ih, countWH]

theorem countRespLine_runOps_false (id proto : String)
    (hdrs : List (String × List String)) (fl : Bool) (ops : List ROp) :
    countRespLine (runOps id proto hdrs fl false ops)
      = countWH ops + (if implicitCommit ops then 1 else 0) := by
  induction ops with
  | nil => rfl
  | cons op rest ih =>
    cases op with
    | write p =>
      simp [runOps_cons, rstep, countRespLine_append,
        countRespLine_writeHeaderEvents, countRespLine_runOps_true,
        countRespLine_cons, countRespLine_nil, isRespLine, countWH,
        implicitCommit, Nat.add_comm]
    | writeHeader c =>
      simp [runOps_cons, rstep, countRespLine_append,
        countRespLine_writeHeaderEvents, countRespLine_runOps_true, countWH,
        implicitCommit, Nat.add_comm]
    | flush =>
      cases fl <;>
        simp [runOps_cons, rstep_flush_events, countRespLine_append,
          countRespLine_cons, countRespLine_nil, isRespLine, ih, countWH,
          implicitCommit]

theorem logOf_append (a b : List REvent) :
    logOf (a ++ b) = logOf a ++ logOf b := by
  simp [logOf, List.filterMap_append]

theorem mem_logOf_respHeaderEvents (id : String)
    (hdrs : List (String × List String)) (e : LogEvent)
    (h : e ∈ logOf (respHeaderEvents id hdrs)) :
    ∃ k v, e = LogEvent.responseHeader id k v := by
  induction hdrs with
  | nil => simp [respHeaderEvents, logOf] at h
  | cons kv rest ih =>
    obtain ⟨k, vs⟩ := kv
    rw [respHeaderEvents, logOf_append] at h
    rcases List.mem_append.mp h with h1 | h2
    · simp only [logOf, List.filterMap_map] at h1
      obtain ⟨v, _, hv⟩ := List.mem_filterMap.mp h1
      exact ⟨k, v, by simpa using hv.symm⟩
    · exact ih h2

theorem blockLines_eq (id proto : String) (hdrs : List (String × List String))
    (code : Nat) :
    blockLines id proto hdrs code
      = LogEvent.responseLine id proto code
          :: logOf (respHeaderEvents id hdrs) ++ [LogEvent.responseBlank id] := by
  simp [blockLines, writeHeaderEvents, logOf, List.filterMap_append]

theorem isChunkLine_blockLines (id proto : String)
    (hdrs : List (String × List String)) (code : Nat) :
    ∀ e ∈ blockLines id proto hdrs code, isChunkLine e = false := by
  intro e he
  rw [blockLines_eq] at he
  rcases List.mem_cons.mp he with h | h
  · simp [h, isChunkLine]
  rcases List.mem_append.mp h with h | h
  · obtain ⟨k, v, rfl⟩ := mem_logOf_respHeaderEvents id hdrs e h
    rfl
  · simp only [List.mem_singleton] at h
    simp [h, isChunkLine]

theorem runOps_write_first (id proto : String)
    (hdrs : List (String × List String)) (fl : Bool) (p : List Char)
    (ops : List ROp) :
    runOps id proto hdrs fl false (ROp.write p :: ops)
      = writeHeaderEvents id proto hdrs 200
          ++ REvent.log (.responseChunk id (chunkToLog p))
          :: REvent.fwdWrite p
          :: runOps id proto hdrs fl true ops := by
  simp [runOps, rstep]

theorem logOf_runOps_block (id proto : String)
    (hdrs : List (String × List String)) (fl : Bool) :
    ∀ ops : List ROp, hasWrite ops = true →
      ∃ code rest,
        logOf (runOps id proto hdrs fl false ops)
          = blockLines id proto hdrs code ++ rest := by
  intro ops
  induction ops with
  | nil => intro h; simp [hasWrite] at h
  | cons op rest ih =>
    cases op with
    | write p =>
      intro _
      refine ⟨200, LogEvent.responseChunk id (chunkToLog p)
        :: logOf (runOps id proto hdrs fl true rest), ?_⟩
      rw [runOps_write_first, logOf_append, blockLines]
      simp [logOf]
    | writeHeader c =>
      intro _
      refine ⟨c, logOf (runOps id proto hdrs fl true rest), ?_⟩
      rw [show runOps id proto hdrs fl false (ROp.writeHeader c :: rest)
            = writeHeaderEvents id proto hdrs c
              ++ runOps id proto hdrs fl true rest by simp [runOps, rstep]]
      rw [logOf_append, blockLines]
    | flush =>
      intro h
      obtain ⟨code, rest2, e⟩ := ih (by simpa [hasWrite] using h)
      refine ⟨code, rest2, ?_⟩
      rw [show runOps id proto hdrs fl false (ROp.flush :: rest)
            = ((mlFlush fl).toOption.getD [])
              ++ runOps id proto hdrs fl false rest by simp [runOps, rstep]]
      rw [logOf_append]
      cases fl <;> simpa [mlFlush, logOf] using e

/-! ## Claims -/

/-- C1 counterexample: `WriteHeader` (logger.go 156-172) emits the block
unconditionally — only `Write` consults `wroteHeader` — so a handler that
calls `WriteHeader` twice gets the response status+header block twice in the
log, refuting "exactly once ... idempotent after first commit". -/
theorem C1_counterexample :
    countRespLine (runOps "id0" "HTTP/1.1" [] false false
        [ROp.writeHeader 200, ROp.writeHeader 200]) = 2
    ∧ ¬ countRespLine (runOps "id0" "HTTP/1.1" [] false false
        [ROp.writeHeader 200, ROp.writeHeader 200]) = 1 := by
  constructor <;> decide

/-- C1 (amended): the `Write`-triggered (implicit) commit is guarded by
`wroteHeader`, so body writes alone produce the block exactly once; but every
explicit `WriteHeader` call emits the block again.  In total, the number of
status+header blocks equals the number of explicit `WriteHeader` calls, plus
one exactly when the first committing operation is a body write. -/
theorem C1_block_count (id proto : String)
    (hdrs : List (String × List String)) (fl : Bool) (ops : List ROp) :
    countRespLine (runOps id proto hdrs fl false ops)
      = countWH ops + (if implicitCommit ops then 1 else 0) :=
  countRespLine_runOps_false id proto hdrs fl ops

/-- C2 counterexample: a zero-byte `Write` still logs a body-chunk line (the
`len(p) > 0` test in lines 148-152 only guards the newline strip, not the
`Println`), refuting "no body-chunk log line is produced" for writes. -/
theorem C2_counterexample :
    (logOf (runOps "id0" "HTTP/1.1" [] false false
        [ROp.writeHeader 200, ROp.write []])).countP isChunkLine = 1
    ∧ ¬ (logOf (runOps "id0" "HTTP/1.1" [] false false
        [ROp.writeHeader 200, ROp.write []])).countP isChunkLine = 0 := by
  constructor <;> decide

/-- C2 (amended): a read that transfers zero bytes produces no log line
(guarded by `0 < n` in line 123); a write that transfers zero bytes still
produces a body-chunk log line, with empty payload. -/
theorem C2_zero_byte (id proto : String)
    (hdrs : List (String × List String)) (fl wh : Bool) (err : Option Err) :
    (mlRead id [] err).2 = []
    ∧ (rstep id proto hdrs fl wh (ROp.write [])).1
        = (if wh then [] else writeHeaderEvents id proto hdrs 200)
          ++ [REvent.log (.responseChunk id []), REvent.fwdWrite []] := by
  exact ⟨rfl, by simp [rstep, chunkToLog]⟩

/-- C3: a `Write` logs the chunk with a single trailing newline stripped
(`chunkToLog`) while the bytes forwarded to the underlying response writer
(`fwdWrite`) are the original chunk unchanged; `chunkToLog` removes exactly
one trailing newline and leaves newline-free chunks intact. -/
theorem C3_log_strips_forward_exact (id proto : String)
    (hdrs : List (String × List String)) (fl wh : Bool) (p : List Char) :
    (rstep id proto hdrs fl wh (ROp.write p)).1
      = (if wh then [] else writeHeaderEvents id proto hdrs 200)
        ++ [REvent.log (.responseChunk id (chunkToLog p)), REvent.fwdWrite p]
    ∧ (∀ xs : List Char, chunkToLog (xs ++ ['\n']) = xs)
    ∧ (∀ q : List Char, q.getLast? ≠ some '\n' → chunkToLog q = q) := by
  refine ⟨rfl, chunkToLog_concat, ?_⟩
  intro q h
  simp [chunkToLog, h]

/-- C3 witness: the theorem applied at a concrete chunk without a trailing
newline. -/
theorem C3_log_strips_forward_exact_witness :
    chunkToLog ['p', 'o', 'n', 'g'] = ['p', 'o', 'n', 'g'] :=
  (C3_log_strips_forward_exact "id0" "HTTP/1.1" [] false true ['x']).2.2
    ['p', 'o', 'n', 'g'] (by decide)

/-- C4: whenever the handler writes body bytes, the emitted log decomposes as
one complete status+header block followed by the remaining lines, and the
block itself contains no body-chunk line — so the block strictly precedes
every response body-chunk line. -/
theorem C4_block_before_chunks (id proto : String)
    (hdrs : List (String × List String)) (fl : Bool) (ops : List ROp)
    (h : hasWrite ops = true) :
    ∃ code rest,
      logOf (runOps id proto hdrs fl false ops)
        = blockLines id proto hdrs code ++ rest
      ∧ ∀ e ∈ blockLines id proto hdrs code, isChunkLine e = false := by
  obtain ⟨code, rest, e⟩ := logOf_runOps_block id proto hdrs fl ops h
  exact ⟨code, rest, e, isChunkLine_blockLines id proto hdrs code⟩

/-- C4 witness: the theorem applied to a concrete single-write trace. -/
theorem C4_block_before_chunks_witness :
    hasWrite [ROp.write ['h', 'i']] = true
    ∧ ∃ code rest,
        logOf (runOps "id0" "HTTP/1.1" [] false false [ROp.write ['h', 'i']])
          = blockLines "id0" "HTTP/1.1" [] code ++ rest
        ∧ ∀ e ∈ blockLines "id0" "HTTP/1.1" [] code, isChunkLine e = false :=
  ⟨rfl, C4_block_before_chunks "id0" "HTTP/1.1" [] false
    [ROp.write ['h', 'i']] rfl⟩

/-- C5: `Read` returns exactly the count and error of the underlying read —
for every error value, including a short read that ends in an error — and
logs the bytes actually deposited whenever the count is positive. -/
theorem C5_read_transparent (id : String) (data : List Char)
    (err : Option Err) :
    (mlRead id data err).1 = (data.length, err)
    ∧ (mlRead id data err).2
        = (if 0 < data.length then [LogEvent.requestChunk id data] else [])
    ∧ lineText (.requestChunk id data) = id ++ " > " ++ String.mk data :=
  ⟨rfl, rfl, lineText_requestChunk id data⟩

/-- C6: `Output` forwards the redactor applied to the fully formatted line
when a redactor is configured, and the identical line when none is; in
particular a `Println`-emitted line is redacted as a whole (identifier,
direction and payload included). -/
theorem C6_redaction_full_line (f : String → String) (sink : SinkBehavior)
    (calldepth : Nat) (s : String) (v : List String) :
    (Output (some f) sink calldepth s).1 = [(calldepth, f s)]
    ∧ (Output none sink calldepth s).1 = [(calldepth, s)]
    ∧ MLPrintln (some f) sink v = [(2, f (Sprintln v))]
    ∧ MLPrintln none sink v = [(2, Sprintln v)] :=
  ⟨rfl, rfl, rfl, rfl⟩

/-- C7: the convenience emitters forward the same lines whatever error the
sink reports — they return nothing and discard the `Output` error — while
`Output` itself returns exactly the sink error for the (redacted) line. -/
theorem C7_helpers_discard_error (redactor : Option (String → String))
    (s1 s2 : SinkBehavior) (v w u : List String) (format : String)
    (calldepth : Nat) (f : String → String) (s : String) :
    MLPrint redactor s1 v = MLPrint redactor s2 v
    ∧ MLPrintf redactor s1 format w = MLPrintf redactor s2 format w
    ∧ MLPrintln redactor s1 u = MLPrintln redactor s2 u
    ∧ (Output (some f) s1 calldepth s).2 = s1.err (f s)
    ∧ (Output none s1 calldepth s).2 = s1.err s :=
  ⟨rfl, rfl, rfl, rfl, rfl⟩

/-- C8: `ServeHTTP` emits, before delegating to the wrapped handler, the
request line, one line per header value with value-list order preserved
within each name, and the blank separator, with the exact formats
`id > METHOD target PROTO`, `id > Name: value` and `id >`. -/
theorem C8_request_prelude (id : String) (r : Request)
    (handlerEvents : List REvent) :
    serveEvents id r handlerEvents
      = REvent.log (.requestLine id r.method r.uri r.proto)
          :: reqHeaderEvents id r.headers
          ++ REvent.log (.requestBlank id) :: handlerEvents
    ∧ (∀ (k : String) (vs : List String) (t : List (String × List String)),
        reqHeaderEvents id ((k, vs) :: t)
          = vs.map (fun v => REvent.log (.requestHeader id k v))
            ++ reqHeaderEvents id t)
    ∧ render (.requestLine id r.method r.uri r.proto)
        = id ++ " > " ++ r.method ++ " " ++ r.uri ++ " " ++ r.proto
    ∧ (∀ k v, render (.requestHeader id k v) = id ++ " > " ++ k ++ ": " ++ v)
    ∧ lineText (.requestBlank id) = id ++ " >" :=
  ⟨rfl, fun _ _ _ => rfl, render_requestLine id r.method r.uri r.proto,
    fun k v => render_requestHeader id k v, lineText_requestBlank id⟩

/-- C9: a first `Write` with no prior commit triggers `WriteHeader(200)`:
the status+header block for code 200, ending in the forwarded
`WriteHeader(200)` call, precedes the chunk line and the forwarded bytes;
`http.StatusText 200` is `OK` and the logged response line reads
`id < PROTO 200 OK`. -/
theorem C9_default_commit_200 (id proto : String)
    (hdrs : List (String × List String)) (fl : Bool) (p : List Char)
    (ops : List ROp) :
    runOps id proto hdrs fl false (ROp.write p :: ops)
      = writeHeaderEvents id proto hdrs 200
          ++ REvent.log (.responseChunk id (chunkToLog p))
          :: REvent.fwdWrite p :: runOps id proto hdrs fl true ops
    ∧ writeHeaderEvents id proto hdrs 200
        = REvent.log (.responseLine id proto 200)
          :: respHeaderEvents id hdrs
          ++ [REvent.log (.responseBlank id), REvent.fwdWriteHeader 200]
    ∧ statusText 200 = "OK"
    ∧ render (.responseLine id proto 200)
        = id ++ " < " ++ proto ++ " 200 OK" :=
  ⟨runOps_write_first id proto hdrs fl p ops, rfl, rfl,
    render_responseLine_200 id proto⟩

/-- C10: `Flush` never panics — it always returns normally (`Except.ok`),
forwarding the flush exactly when the underlying writer has the capability
and doing nothing otherwise, leaving `wroteHeader` untouched. -/
theorem C10_flush_no_panic (flusherOk : Bool) (id proto : String)
    (hdrs : List (String × List String)) (wh : Bool) :
    (∃ evts, mlFlush flusherOk = Except.ok evts)
    ∧ mlFlush flusherOk
        = Except.ok (if flusherOk then [REvent.fwdFlush] else [])
    ∧ (rstep id proto hdrs flusherOk wh ROp.flush).1
        = (if flusherOk then [REvent.fwdFlush] else [])
    ∧ (rstep id proto hdrs flusherOk wh ROp.flush).2 = wh := by
  refine ⟨⟨if flusherOk then [REvent.fwdFlush] else [], rfl⟩, rfl, ?_, ?_⟩ <;>
    cases flusherOk <;> rfl

end Marshaler
